import Mathlib

/-!
Shallow embedding of the BEE momentum scoring and intervention engine.

The daily score calculator (zone thresholds, per-type event caps and the
exponential decay weight) is embedded from the algorithm replicas in
`src/tests/api/test_momentum_calculation_unit_tests.py` (MOMENTUM_CONFIG and
the simulated calculation logic inside the tests).  The hysteresis-aware
classifier, the intervention rule engine with its rate limiter, batch
evaluation and the daily-score store are edge-function / database code that
is not part of the repository snapshot; those definitions are modelled from
the specification (each such definition carries a doc comment starting with
`Modelled from the spec:`).  The back-fill script
`src/scripts/backfill_momentum_rows.py` is embedded directly.
-/

/-- The three momentum states of a daily score
(`Rising | Steady | NeedsCare`). -/
inductive MomentumState where
  | Rising
  | Steady
  | NeedsCare
deriving DecidableEq, Repr

/-- `MOMENTUM_CONFIG RISING_THRESHOLD` (= 70). -/
def RISING_THRESHOLD : ℚ := 70

/-- `MOMENTUM_CONFIG NEEDS_CARE_THRESHOLD` (= 45). -/
def NEEDS_CARE_THRESHOLD : ℚ := 45

/-- `MOMENTUM_CONFIG HYSTERESIS_BUFFER` (= 2.0). -/
def HYSTERESIS_BUFFER : ℚ := 2

/-- `MOMENTUM_CONFIG MAX_EVENTS_PER_TYPE` (= 5). -/
def MAX_EVENTS_PER_TYPE : Nat := 5

/-- `MOMENTUM_CONFIG MAX_DAILY_SCORE` (= 100). -/
def MAX_DAILY_SCORE : Nat := 100

/-- `MOMENTUM_CONFIG HALF_LIFE_DAYS` (= 10). -/
def HALF_LIFE_DAYS : Nat := 10

/-- Naive zone classification of a final score, embedded from
`test_zone_classification_thresholds` in
`src/tests/api/test_momentum_calculation_unit_tests.py`:
`score >= RISING_THRESHOLD → Rising`, else
`score >= NEEDS_CARE_THRESHOLD → Steady`, else `NeedsCare`. -/
def classifyZone (s : ℚ) : MomentumState :=
  if RISING_THRESHOLD ≤ s then MomentumState.Rising
  else if NEEDS_CARE_THRESHOLD ≤ s then MomentumState.Steady
  else MomentumState.NeedsCare

/-- `classifyZone` returns Rising on scores at or above the rising
threshold. -/
lemma classifyZone_eq_rising (s : ℚ) (h : 70 ≤ s) :
    classifyZone s = MomentumState.Rising := by
  simp only [classifyZone, RISING_THRESHOLD]
  rw [if_pos h]

/-- `classifyZone` returns Steady on scores in `[45, 70)`. -/
lemma classifyZone_eq_steady (s : ℚ) (h1 : 45 ≤ s) (h2 : s < 70) :
    classifyZone s = MomentumState.Steady := by
  simp only [classifyZone, RISING_THRESHOLD, NEEDS_CARE_THRESHOLD]
  rw [if_neg (by linarith), if_pos h1]

/-- `classifyZone` returns NeedsCare on scores below 45. -/
lemma classifyZone_eq_needsCare (s : ℚ) (h : s < 45) :
    classifyZone s = MomentumState.NeedsCare := by
  simp only [classifyZone, RISING_THRESHOLD, NEEDS_CARE_THRESHOLD]
  rw [if_neg (by linarith), if_neg (by linarith)]

/-- C1: the naive zone classification is total and exhaustive: `s ≥ 70`
gives Rising, `45 ≤ s < 70` gives Steady, `s < 45` gives NeedsCare, with
the boundary values 70 and 45 classifying as Rising and Steady; being a
function, `classifyZone` produces exactly one state for any score. -/
theorem zone_classification_thresholds (s : ℚ) :
    (70 ≤ s → classifyZone s = MomentumState.Rising) ∧
    (45 ≤ s → s < 70 → classifyZone s = MomentumState.Steady) ∧
    (s < 45 → classifyZone s = MomentumState.NeedsCare) ∧
    classifyZone 70 = MomentumState.Rising ∧
    classifyZone 45 = MomentumState.Steady :=
  ⟨classifyZone_eq_rising s, classifyZone_eq_steady s,
   classifyZone_eq_needsCare s,
   classifyZone_eq_rising 70 (by norm_num),
   classifyZone_eq_steady 45 (by norm_num) (by norm_num)⟩

/-- Witness for C1 at the concrete scores 70, 45 and 44. -/
theorem zone_classification_thresholds_witness :
    classifyZone 70 = MomentumState.Rising ∧
    classifyZone 45 = MomentumState.Steady ∧
    classifyZone 44 = MomentumState.NeedsCare :=
  ⟨(zone_classification_thresholds 70).1 (by norm_num),
   (zone_classification_thresholds 45).2.1 (by norm_num) (by norm_num),
   (zone_classification_thresholds 44).2.2.1 (by norm_num)⟩

/-- Rank of a zone, used to compare zones ("higher zone"): NeedsCare < Steady
< Rising.  Modelled from the spec: hysteresis applies when the state of yesterday
was a higher zone than the naive classification of the score of today. -/
def zoneRank : MomentumState → Nat
  | MomentumState.Rising => 2
  | MomentumState.Steady => 1
  | MomentumState.NeedsCare => 0

/-- Modelled from the spec: the zone boundary that keeps a given state:
a score at or above `RISING_THRESHOLD` keeps Rising, at or above
`NEEDS_CARE_THRESHOLD` keeps Steady (NeedsCare needs no boundary and is
never retained by hysteresis against a higher naive zone). -/
def zoneBoundary : MomentumState → ℚ
  | MomentumState.Rising => RISING_THRESHOLD
  | MomentumState.Steady => NEEDS_CARE_THRESHOLD
  | MomentumState.NeedsCare => 0

/-- Modelled from the spec: the hysteresis-stabilised classifier of the score
calculator (the calculator itself is edge-function code outside the
repository snapshot; the Rising case is also replicated by
`test_hysteresis_buffer_logic`).  If the state of yesterday is a higher zone than
the naive classification of the score of today, and that score is within
`HYSTERESIS_BUFFER` points of the zone boundary that would have kept
the state of yesterday, retain that state; otherwise use the naive
classification. -/
def classifyWithHysteresis (prev : Option MomentumState) (s : ℚ) : MomentumState :=
  let naive := classifyZone s
  match prev with
  | none => naive
  | some p =>
      if zoneRank naive < zoneRank p ∧ zoneBoundary p - HYSTERESIS_BUFFER ≤ s then p
      else naive

/-- C2: with previous state Rising and a new final score in
`[RISING_THRESHOLD - HYSTERESIS_BUFFER, RISING_THRESHOLD) = [68, 70)`, the
resulting momentum state remains Rising instead of downgrading to Steady. -/
theorem hysteresis_keeps_rising (s : ℚ) (h1 : 68 ≤ s) (h2 : s < 70) :
    classifyWithHysteresis (some MomentumState.Rising) s = MomentumState.Rising := by
  have hnaive : classifyZone s = MomentumState.Steady :=
    classifyZone_eq_steady s (by linarith) h2
  simp only [classifyWithHysteresis, hnaive]
  rw [if_pos]
  constructor
  · simp [zoneRank]
  · simp only [zoneBoundary, RISING_THRESHOLD, HYSTERESIS_BUFFER]
    linarith

/-- Witness for C2 at the concrete score 69. -/
theorem hysteresis_keeps_rising_witness :
    classifyWithHysteresis (some MomentumState.Rising) 69 = MomentumState.Rising :=
  hysteresis_keeps_rising 69 (by norm_num) (by norm_num)

/-- The fixed catalog of engagement event types
(the keys of `MOMENTUM_CONFIG EVENT_WEIGHTS`). -/
inductive EventType where
  | lesson_completion
  | lesson_start
  | journal_entry
  | coach_interaction
  | goal_setting
  | goal_completion
  | app_session
  | streak_milestone
  | assessment_completion
  | resource_access
  | peer_interaction
  | reminder_response
deriving DecidableEq, Repr

/-- Point weight of each event type
(`MOMENTUM_CONFIG EVENT_WEIGHTS`). -/
def eventWeight : EventType → Nat
  | EventType.lesson_completion => 15
  | EventType.lesson_start => 5
  | EventType.journal_entry => 10
  | EventType.coach_interaction => 20
  | EventType.goal_setting => 12
  | EventType.goal_completion => 18
  | EventType.app_session => 3
  | EventType.streak_milestone => 25
  | EventType.assessment_completion => 15
  | EventType.resource_access => 5
  | EventType.peer_interaction => 8
  | EventType.reminder_response => 7

/-- One step of the event-type limiting loop of
`test_raw_score_calculation_with_limits`
(`src/tests/api/test_momentum_calculation_unit_tests.py`, lines 178-186):
the running state is the accumulated score together with per-type counts;
an event adds its points only while fewer than `MAX_EVENTS_PER_TYPE`
occurrences of its type have been counted. -/
def limitedScoreStep (acc : Nat × (EventType → Nat)) (e : EventType) :
    Nat × (EventType → Nat) :=
  if acc.2 e < MAX_EVENTS_PER_TYPE then
    (acc.1 + eventWeight e, fun t => if t = e then acc.2 t + 1 else acc.2 t)
  else acc

/-- The capped raw point total of a day of events: only the first
`MAX_EVENTS_PER_TYPE` occurrences of a given type contribute points
(the limiting loop of `test_raw_score_calculation_with_limits`). -/
def limitedScore (events : List EventType) : Nat :=
  (events.foldl limitedScoreStep (0, fun _ => 0)).1

/-- The stored `events_count` is the plain number of events of the day. -/
def eventsCount (events : List EventType) : Nat := events.length

/-- The per-type counter kept by the limiting loop saturates at
`MAX_EVENTS_PER_TYPE`: starting from a count that is at most the cap, it
ends at the minimum of the cap and the count plus the number of
occurrences in the remaining events. -/
lemma limitedScore_counts (events : List EventType) :
    ∀ (acc : Nat × (EventType → Nat)) (t : EventType), acc.2 t ≤ MAX_EVENTS_PER_TYPE →
      (events.foldl limitedScoreStep acc).2 t =
        min (acc.2 t + events.count t) MAX_EVENTS_PER_TYPE := by
  induction events with
  | nil =>
      intro acc t h
      simp only [List.foldl_nil, List.count_nil, Nat.add_zero]
      omega
  | cons x xs ih =>
      intro acc t h
      rw [List.foldl_cons]
      by_cases hx : acc.2 x < MAX_EVENTS_PER_TYPE
      · have hstep : limitedScoreStep acc x =
            (acc.1 + eventWeight x, fun t => if t = x then acc.2 t + 1 else acc.2 t) := by
          simp [limitedScoreStep, hx]
        rw [hstep, ih]
        · dsimp only
          by_cases ht : t = x
          · subst ht
            rw [if_pos rfl, List.count_cons_self]
            omega
          · simp only [if_neg ht, List.count_cons_of_ne ht]
        · dsimp only
          by_cases ht : t = x
          · subst ht
            rw [if_pos rfl]
            omega
          · simp only [if_neg ht]
            exact h
      · have hstep : limitedScoreStep acc x = acc := by
          simp [limitedScoreStep, hx]
        rw [hstep, ih acc t h]
        by_cases ht : t = x
        · subst ht
          simp only [List.count_cons_self]
          omega
        · simp only [List.count_cons_of_ne ht]

/-- Appending one event changes the capped score by the event weight
exactly when fewer than `MAX_EVENTS_PER_TYPE` events of its type were
already present. -/
lemma limitedScore_append (events : List EventType) (e : EventType) :
    limitedScore (events ++ [e]) =
      limitedScore events +
        (if events.count e < MAX_EVENTS_PER_TYPE then eventWeight e else 0) := by
  have hc : (events.foldl limitedScoreStep (0, fun _ => 0)).2 e =
      min (events.count e) MAX_EVENTS_PER_TYPE := by
    rw [limitedScore_counts events (0, fun _ => 0) e (by simp [MAX_EVENTS_PER_TYPE])]
    simp
  simp only [limitedScore, List.foldl_append, List.foldl_cons, List.foldl_nil]
  by_cases h : events.count e < MAX_EVENTS_PER_TYPE
  · have : (events.foldl limitedScoreStep (0, fun _ => 0)).2 e < MAX_EVENTS_PER_TYPE := by
      rw [hc]; omega
    simp [limitedScoreStep, this, h]
  · have : ¬ (events.foldl limitedScoreStep (0, fun _ => 0)).2 e < MAX_EVENTS_PER_TYPE := by
      rw [hc]; omega
    simp [limitedScoreStep, this, h]

/-- C3: adding an occurrence of a type beyond its fifth never increases the
capped point total, the first five occurrences contribute exactly
`5 · weight`, and the stored `events_count` still counts every event. -/
theorem event_type_limits (events : List EventType) (e : EventType)
    (h : MAX_EVENTS_PER_TYPE ≤ events.count e) :
    limitedScore (events ++ [e]) = limitedScore events ∧
    eventsCount (events ++ [e]) = eventsCount events + 1 ∧
    limitedScore (List.replicate MAX_EVENTS_PER_TYPE e) =
      MAX_EVENTS_PER_TYPE * eventWeight e := by
  refine ⟨?_, by simp [eventsCount], ?_⟩
  · rw [limitedScore_append]
    have : ¬ events.count e < MAX_EVENTS_PER_TYPE := by omega
    simp [this]
  · have hgen : ∀ n : Nat, n ≤ MAX_EVENTS_PER_TYPE →
        limitedScore (List.replicate n e) = n * eventWeight e := by
      intro n hn
      induction n with
      | zero => simp [limitedScore]
      | succ k ihk =>
          have hrep : List.replicate (k + 1) e = List.replicate k e ++ [e] := by
            rw [List.replicate_succ']
          rw [hrep, limitedScore_append, ihk (by omega)]
          have : (List.replicate k e).count e = k := by simp
          rw [this]
          have hk : k < MAX_EVENTS_PER_TYPE := by omega
          simp [hk, Nat.succ_mul]
    exact hgen MAX_EVENTS_PER_TYPE le_rfl

/-- Witness for C3: a sixth `lesson_completion` adds nothing to the capped
score while `events_count` still grows. -/
theorem event_type_limits_witness :
    limitedScore (List.replicate 5 EventType.lesson_completion ++
        [EventType.lesson_completion]) =
      limitedScore (List.replicate 5 EventType.lesson_completion) ∧
    eventsCount (List.replicate 5 EventType.lesson_completion ++
        [EventType.lesson_completion]) =
      eventsCount (List.replicate 5 EventType.lesson_completion) + 1 ∧
    limitedScore (List.replicate MAX_EVENTS_PER_TYPE EventType.lesson_completion) =
      MAX_EVENTS_PER_TYPE * eventWeight EventType.lesson_completion :=
  event_type_limits (List.replicate 5 EventType.lesson_completion)
    EventType.lesson_completion (by simp [MAX_EVENTS_PER_TYPE])

/-- `MOMENTUM_CONFIG DECAY_FACTOR = math.log(2) / 10`, the exponential
decay rate of the score calculator (floating-point arithmetic is idealised
as real arithmetic). -/
noncomputable def DECAY_FACTOR : ℝ := Real.log 2 / 10

/-- The decay weight applied to a score `d` elapsed days in the past, as
computed throughout `src/tests/api/test_momentum_calculation_unit_tests.py`
(`math.exp(-DECAY_FACTOR * days)`). -/
noncomputable def decayWeight (d : ℝ) : ℝ := Real.exp (-DECAY_FACTOR * d)

/-- The decay rate is positive. -/
lemma DECAY_FACTOR_pos : 0 < DECAY_FACTOR := by
  unfold DECAY_FACTOR
  have h2 : (0 : ℝ) < Real.log 2 := Real.log_pos (by norm_num)
  positivity

/-- C4: the decay weight is strictly decreasing in elapsed days, lies in
`(0, 1]` for every nonnegative number of days, and at exactly
`HALF_LIFE_DAYS = 10` days equals one half, hence is within 1% of 0.5. -/
theorem decay_weight_properties :
    (∀ d1 d2 : ℝ, d1 < d2 → decayWeight d2 < decayWeight d1) ∧
    (∀ d : ℝ, 0 ≤ d → 0 < decayWeight d ∧ decayWeight d ≤ 1) ∧
    |decayWeight (HALF_LIFE_DAYS : ℝ) - 1/2| < 1/100 := by
  refine ⟨?_, ?_, ?_⟩
  · intro d1 d2 h
    unfold decayWeight
    rw [Real.exp_lt_exp]
    have := DECAY_FACTOR_pos
    nlinarith
  · intro d hd
    refine ⟨Real.exp_pos _, ?_⟩
    unfold decayWeight
    rw [Real.exp_le_one_iff]
    have := DECAY_FACTOR_pos
    nlinarith
  · have h10 : decayWeight (HALF_LIFE_DAYS : ℝ) = 1/2 := by
      unfold decayWeight DECAY_FACTOR HALF_LIFE_DAYS
      have harg : -(Real.log 2 / 10) * ((10 : ℕ) : ℝ) = -Real.log 2 := by
        push_cast
        ring
      rw [harg, Real.exp_neg, Real.exp_log (by norm_num : (0:ℝ) < 2)]
      norm_num
    rw [h10]
    norm_num

/-- Witness for C4 at the concrete day counts 1 < 2 and d = 3. -/
theorem decay_weight_properties_witness :
    decayWeight 2 < decayWeight 1 ∧
    (0 < decayWeight 3 ∧ decayWeight 3 ≤ 1) ∧
    |decayWeight (HALF_LIFE_DAYS : ℝ) - 1/2| < 1/100 :=
  ⟨decay_weight_properties.1 1 2 (by norm_num),
   decay_weight_properties.2.1 3 (by norm_num),
   decay_weight_properties.2.2⟩

/-- One day of the persisted score history of a user as read by the rule engine:
the final score and the momentum state of that day.  Histories are listed
most-recent day first, matching the fixtures of
`src/tests/api/test_intervention_engine.py`. -/
structure DayScore where
  score : ℚ
  state : MomentumState
deriving DecidableEq, Repr

/-- The notification types emitted by the four rules of the engine. -/
inductive NotificationType where
  | consecutive_needs_care
  | score_drop
  | celebration
  | consistency_reminder
deriving DecidableEq, Repr

/-- A persisted NotificationRecord (the fields the rules and tests inspect:
user, notification type and action type). -/
structure NotificationRecord where
  userId : String
  ntype : NotificationType
  actionType : String
deriving DecidableEq, Repr

/-- A persisted InterventionRecord (the fields the rules and tests inspect:
user, intervention type, priority and trigger reason). -/
structure InterventionRecord where
  userId : String
  interventionType : String
  priority : String
  reason : String
deriving DecidableEq, Repr

/-- The persisted rows the rule engine reads and writes: notification and
intervention records. -/
structure EngineState where
  notifications : List NotificationRecord
  interventions : List InterventionRecord
deriving DecidableEq, Repr

/-- The engine starts from a store holding no rows for the user. -/
def emptyEngineState : EngineState := ⟨[], []⟩

/-- Modelled from the spec: the consecutive-care trigger condition of the
rule engine (edge-function code outside the repository snapshot): the two
most recent days of the history are both classified NeedsCare. -/
def consecutiveNeedsCareTriggered (h : List DayScore) : Bool :=
  match h with
  | d1 :: d2 :: _ =>
      decide (d1.state = MomentumState.NeedsCare ∧ d2.state = MomentumState.NeedsCare)
  | _ => false

/-- Modelled from the spec: the score-drop trigger condition: the final
score dropped by at least 20 points over the trailing 3 days. -/
def scoreDropTriggered (h : List DayScore) : Bool :=
  match h with
  | d0 :: _ :: d2 :: _ => decide (20 ≤ d2.score - d0.score)
  | _ => false

/-- Modelled from the spec: the celebration trigger condition: at least 4 of
the trailing 5 days are classified Rising and the current (most recent)
state is exactly Rising. -/
def celebrationTriggered (h : List DayScore) : Bool :=
  match h with
  | d0 :: _ =>
      decide (d0.state = MomentumState.Rising) &&
        decide (4 ≤ (h.take 5).countP (fun d => decide (d.state = MomentumState.Rising)))
  | [] => false

/-- Number of momentum-state changes between adjacent days of a history. -/
def stateChanges : List MomentumState → Nat
  | a :: b :: rest => (if a = b then 0 else 1) + stateChanges (b :: rest)
  | _ => 0

/-- Modelled from the spec: the consistency-reminder trigger condition: at
least 4 state changes across the trailing 7 days. -/
def consistencyTriggered (h : List DayScore) : Bool :=
  decide (4 ≤ stateChanges ((h.take 7).map (fun d => d.state)))

/-- Modelled from the spec: the rate limiter consults the store for an
existing row with the key (user id, rule/notification type); a rule is
suppressed when such a row already exists within the current window
(granularity one day, so any existing row of the day of the run suppresses). -/
def hasNotificationOfType (st : EngineState) (u : String) (t : NotificationType) : Bool :=
  st.notifications.any (fun n => decide (n.userId = u ∧ n.ntype = t))

/-- Number of stored notifications with the key (user id, type). -/
def notificationCount (st : EngineState) (u : String) (t : NotificationType) : Nat :=
  st.notifications.countP (fun n => decide (n.userId = u ∧ n.ntype = t))

/-- Number of stored interventions for a user with a given trigger reason
and priority. -/
def interventionCount (st : EngineState) (u : String) (reason priority : String) : Nat :=
  st.interventions.countP
    (fun i => decide (i.userId = u ∧ i.reason = reason ∧ i.priority = priority))

/-- Modelled from the spec: one rule of the engine.  If the trigger of the rule
condition holds and the rate limiter finds no existing notification with
the key (user, type) holds, append the notification of the rule (and any intervention
records the rule emits) and count one firing; otherwise leave the store
unchanged. -/
def ruleStep (u : String) (trig : Bool) (t : NotificationType) (action : String)
    (extra : List InterventionRecord) (st : EngineState) : EngineState × Nat :=
  if trig && !(hasNotificationOfType st u t) then
    (⟨st.notifications ++ [⟨u, t, action⟩], st.interventions ++ extra⟩, 1)
  else (st, 0)

/-- The high-priority coaching-call intervention emitted by the
consecutive-care rule. -/
def consecutiveNeedsCareIntervention (u : String) : InterventionRecord :=
  ⟨u, "automated_call_schedule", "high", "consecutive_needs_care"⟩

/-- Modelled from the spec: single-user rule evaluation of the intervention
engine.  The four rules are evaluated independently against the stored
score history, each gated by the rate limiter, and the store plus the
number of rules fired is returned. -/
def evaluateRulesUser (u : String) (h : List DayScore) (st : EngineState) :
    EngineState × Nat :=
  let r1 := ruleStep u (consecutiveNeedsCareTriggered h)
    NotificationType.consecutive_needs_care "schedule_call"
    [consecutiveNeedsCareIntervention u] st
  let r2 := ruleStep u (scoreDropTriggered h)
    NotificationType.score_drop "complete_lesson" [] r1.1
  let r3 := ruleStep u (celebrationTriggered h)
    NotificationType.celebration "view_momentum" [] r2.1
  let r4 := ruleStep u (consistencyTriggered h)
    NotificationType.consistency_reminder "journal_entry" [] r3.1
  (r4.1, r1.2 + r2.2 + r3.2 + r4.2)

/-- After a rule fires (or was already rate-limited), its own notification
key is present in the store. -/
lemma ruleStep_has_self (u : String) (trig : Bool) (t : NotificationType)
    (action : String) (extra : List InterventionRecord) (st : EngineState)
    (htrig : trig = true) :
    hasNotificationOfType (ruleStep u trig t action extra st).1 u t = true := by
  subst htrig
  cases hh : hasNotificationOfType st u t with
  | true => simp [ruleStep, hh]
  | false =>
      simp only [ruleStep, hh, Bool.not_false, Bool.and_true, if_pos rfl]
      simp [hasNotificationOfType, List.any_append]

/-- A rule step never removes a notification key from the store. -/
lemma ruleStep_preserves_has (u : String) (trig : Bool) (t : NotificationType)
    (action : String) (extra : List InterventionRecord) (st : EngineState)
    (u' : String) (t' : NotificationType)
    (h : hasNotificationOfType st u' t' = true) :
    hasNotificationOfType (ruleStep u trig t action extra st).1 u' t' = true := by
  unfold ruleStep
  split
  · simp only [hasNotificationOfType, List.any_append] at h ⊢
    simp only [List.any_eq_true, decide_eq_true_eq] at h
    simp only [List.any_eq_true, decide_eq_true_eq, Bool.or_eq_true]
    exact Or.inl h
  · exact h

/-- A rule whose notification key is already present, or whose trigger does
not hold, leaves the store unchanged and fires zero times. -/
lemma ruleStep_stall (u : String) (trig : Bool) (t : NotificationType)
    (action : String) (extra : List InterventionRecord) (st : EngineState)
    (h : trig = true → hasNotificationOfType st u t = true) :
    ruleStep u trig t action extra st = (st, 0) := by
  cases trig with
  | false => simp [ruleStep]
  | true => simp [ruleStep, h rfl]

/-- A run of the engine from an empty store produces exactly the
notifications of the triggered rules, in rule order, and exactly the
interventions of the consecutive-care rule when it triggered. -/
lemma evaluateRulesUser_empty (u : String) (h : List DayScore) :
    (evaluateRulesUser u h emptyEngineState).1.notifications =
      (if consecutiveNeedsCareTriggered h then
        [⟨u, NotificationType.consecutive_needs_care, "schedule_call"⟩] else []) ++
      (if scoreDropTriggered h then
        [⟨u, NotificationType.score_drop, "complete_lesson"⟩] else []) ++
      (if celebrationTriggered h then
        [⟨u, NotificationType.celebration, "view_momentum"⟩] else []) ++
      (if consistencyTriggered h then
        [⟨u, NotificationType.consistency_reminder, "journal_entry"⟩] else []) ∧
    (evaluateRulesUser u h emptyEngineState).1.interventions =
      (if consecutiveNeedsCareTriggered h then
        [consecutiveNeedsCareIntervention u] else []) := by
  cases hb1 : consecutiveNeedsCareTriggered h <;>
    cases hb2 : scoreDropTriggered h <;>
      cases hb3 : celebrationTriggered h <;>
        cases hb4 : consistencyTriggered h <;>
          simp [evaluateRulesUser, ruleStep, hasNotificationOfType,
            emptyEngineState, hb1, hb2, hb3, hb4]

/-- When the notification key of every triggered rule is already present, a run
of the engine is a complete no-op. -/
lemma evaluateRulesUser_stall (u : String) (h : List DayScore) (st : EngineState)
    (h1 : consecutiveNeedsCareTriggered h = true →
      hasNotificationOfType st u NotificationType.consecutive_needs_care = true)
    (h2 : scoreDropTriggered h = true →
      hasNotificationOfType st u NotificationType.score_drop = true)
    (h3 : celebrationTriggered h = true →
      hasNotificationOfType st u NotificationType.celebration = true)
    (h4 : consistencyTriggered h = true →
      hasNotificationOfType st u NotificationType.consistency_reminder = true) :
    evaluateRulesUser u h st = (st, 0) := by
  unfold evaluateRulesUser
  rw [ruleStep_stall _ _ _ _ _ _ h1]
  dsimp only
  rw [ruleStep_stall _ _ _ _ _ _ h2]
  dsimp only
  rw [ruleStep_stall _ _ _ _ _ _ h3]
  dsimp only
  rw [ruleStep_stall _ _ _ _ _ _ h4]
  dsimp only

/-- C5: rule evaluation is idempotent under the rate limiter: re-invoking
the engine on the same unchanged history returns the persisted store of the
first invocation unchanged, firing zero rules, and a run from an empty
store leaves at most one notification per (user, rule-type) key. -/
theorem evaluate_rules_idempotent (u : String) (h : List DayScore) (st : EngineState) :
    evaluateRulesUser u h (evaluateRulesUser u h st).1 = ((evaluateRulesUser u h st).1, 0) ∧
    ∀ t, notificationCount (evaluateRulesUser u h emptyEngineState).1 u t ≤ 1 := by
  constructor
  · have hs4 : (evaluateRulesUser u h st).1 =
        (ruleStep u (consistencyTriggered h) NotificationType.consistency_reminder
          "journal_entry" []
          ((ruleStep u (celebrationTriggered h) NotificationType.celebration
            "view_momentum" []
            ((ruleStep u (scoreDropTriggered h) NotificationType.score_drop
              "complete_lesson" []
              ((ruleStep u (consecutiveNeedsCareTriggered h)
                NotificationType.consecutive_needs_care "schedule_call"
                [consecutiveNeedsCareIntervention u] st).1)).1)).1)).1 := rfl
    refine evaluateRulesUser_stall u h _ ?_ ?_ ?_ ?_
    · intro hb
      rw [hs4]
      exact ruleStep_preserves_has _ _ _ _ _ _ _ _
        (ruleStep_preserves_has _ _ _ _ _ _ _ _
          (ruleStep_preserves_has _ _ _ _ _ _ _ _
            (ruleStep_has_self _ _ _ _ _ _ hb)))
    · intro hb
      rw [hs4]
      exact ruleStep_preserves_has _ _ _ _ _ _ _ _
        (ruleStep_preserves_has _ _ _ _ _ _ _ _
          (ruleStep_has_self _ _ _ _ _ _ hb))
    · intro hb
      rw [hs4]
      exact ruleStep_preserves_has _ _ _ _ _ _ _ _
        (ruleStep_has_self _ _ _ _ _ _ hb)
    · intro hb
      rw [hs4]
      exact ruleStep_has_self _ _ _ _ _ _ hb
  · intro t
    unfold notificationCount
    rw [(evaluateRulesUser_empty u h).1]
    cases hb1 : consecutiveNeedsCareTriggered h <;>
      cases hb2 : scoreDropTriggered h <;>
        cases hb3 : celebrationTriggered h <;>
          cases hb4 : consistencyTriggered h <;>
            cases t <;>
              simp [List.countP_append, List.countP_cons]

/-- Witness for C5: a concrete two-day NeedsCare history evaluated twice
leaves the store of the first run unchanged and at most one notification
per key. -/
theorem evaluate_rules_idempotent_witness :
    (evaluateRulesUser "u1" [⟨30, MomentumState.NeedsCare⟩, ⟨35, MomentumState.NeedsCare⟩]
        (evaluateRulesUser "u1" [⟨30, MomentumState.NeedsCare⟩, ⟨35, MomentumState.NeedsCare⟩]
          emptyEngineState).1 =
      ((evaluateRulesUser "u1" [⟨30, MomentumState.NeedsCare⟩, ⟨35, MomentumState.NeedsCare⟩]
          emptyEngineState).1, 0)) ∧
    notificationCount
      (evaluateRulesUser "u1" [⟨30, MomentumState.NeedsCare⟩, ⟨35, MomentumState.NeedsCare⟩]
        emptyEngineState).1 "u1" NotificationType.consecutive_needs_care ≤ 1 :=
  ⟨(evaluate_rules_idempotent "u1"
      [⟨30, MomentumState.NeedsCare⟩, ⟨35, MomentumState.NeedsCare⟩] emptyEngineState).1,
   (evaluate_rules_idempotent "u1"
      [⟨30, MomentumState.NeedsCare⟩, ⟨35, MomentumState.NeedsCare⟩] emptyEngineState).2
     NotificationType.consecutive_needs_care⟩

/-- C6: a user whose two most recent days are both classified NeedsCare gets
exactly one intervention (priority high, reason consecutive_needs_care) and
exactly one notification of that type from a rule run; a user with a single
NeedsCare day followed by a Steady day gets neither. -/
theorem consecutive_needs_care_rule (u : String) (d1 d2 : DayScore)
    (rest : List DayScore)
    (h1 : d1.state = MomentumState.NeedsCare)
    (h2 : d2.state = MomentumState.NeedsCare) :
    (evaluateRulesUser u (d1 :: d2 :: rest) emptyEngineState).1.interventions =
      [consecutiveNeedsCareIntervention u] ∧
    interventionCount (evaluateRulesUser u (d1 :: d2 :: rest) emptyEngineState).1 u
      "consecutive_needs_care" "high" = 1 ∧
    notificationCount (evaluateRulesUser u (d1 :: d2 :: rest) emptyEngineState).1 u
      NotificationType.consecutive_needs_care = 1 ∧
    ∀ (e1 e2 : DayScore) (rest2 : List DayScore),
      e1.state = MomentumState.NeedsCare → e2.state = MomentumState.Steady →
        (evaluateRulesUser u (e1 :: e2 :: rest2) emptyEngineState).1.interventions = [] ∧
        notificationCount (evaluateRulesUser u (e1 :: e2 :: rest2) emptyEngineState).1 u
          NotificationType.consecutive_needs_care = 0 := by
  have htrig : consecutiveNeedsCareTriggered (d1 :: d2 :: rest) = true := by
    simp [consecutiveNeedsCareTriggered, h1, h2]
  have hint : (evaluateRulesUser u (d1 :: d2 :: rest) emptyEngineState).1.interventions =
      [consecutiveNeedsCareIntervention u] := by
    rw [(evaluateRulesUser_empty u (d1 :: d2 :: rest)).2, htrig]
    simp
  refine ⟨hint, ?_, ?_, ?_⟩
  · rw [interventionCount, hint]
    simp [consecutiveNeedsCareIntervention, List.countP_cons]
  · rw [notificationCount, (evaluateRulesUser_empty u (d1 :: d2 :: rest)).1, htrig]
    cases hb2 : scoreDropTriggered (d1 :: d2 :: rest) <;>
      cases hb3 : celebrationTriggered (d1 :: d2 :: rest) <;>
        cases hb4 : consistencyTriggered (d1 :: d2 :: rest) <;>
          simp [List.countP_append, List.countP_cons]
  · intro e1 e2 rest2 he1 he2
    have htrig2 : consecutiveNeedsCareTriggered (e1 :: e2 :: rest2) = false := by
      simp [consecutiveNeedsCareTriggered, he1, he2]
    constructor
    · rw [(evaluateRulesUser_empty u (e1 :: e2 :: rest2)).2, htrig2]
      simp
    · rw [notificationCount, (evaluateRulesUser_empty u (e1 :: e2 :: rest2)).1, htrig2]
      cases hb2 : scoreDropTriggered (e1 :: e2 :: rest2) <;>
        cases hb3 : celebrationTriggered (e1 :: e2 :: rest2) <;>
          cases hb4 : consistencyTriggered (e1 :: e2 :: rest2) <;>
            simp [List.countP_append, List.countP_cons]

/-- Witness for C6 at the concrete fixtures of
`test_consecutive_needs_care_trigger` (scores 30, 35, then a Steady 60) and
`test_no_consecutive_needs_care_single_day` (30 NeedsCare then 60, 65
Steady). -/
theorem consecutive_needs_care_rule_witness :
    (evaluateRulesUser "u1"
        [⟨30, MomentumState.NeedsCare⟩, ⟨35, MomentumState.NeedsCare⟩,
          ⟨60, MomentumState.Steady⟩] emptyEngineState).1.interventions =
      [consecutiveNeedsCareIntervention "u1"] ∧
    notificationCount (evaluateRulesUser "u1"
        [⟨30, MomentumState.NeedsCare⟩, ⟨35, MomentumState.NeedsCare⟩,
          ⟨60, MomentumState.Steady⟩] emptyEngineState).1 "u1"
      NotificationType.consecutive_needs_care = 1 ∧
    (evaluateRulesUser "u1"
        [⟨30, MomentumState.NeedsCare⟩, ⟨60, MomentumState.Steady⟩,
          ⟨65, MomentumState.Steady⟩] emptyEngineState).1.interventions = [] :=
  ⟨(consecutive_needs_care_rule "u1" ⟨30, MomentumState.NeedsCare⟩
      ⟨35, MomentumState.NeedsCare⟩ [⟨60, MomentumState.Steady⟩] rfl rfl).1,
   (consecutive_needs_care_rule "u1" ⟨30, MomentumState.NeedsCare⟩
      ⟨35, MomentumState.NeedsCare⟩ [⟨60, MomentumState.Steady⟩] rfl rfl).2.2.1,
   ((consecutive_needs_care_rule "u1" ⟨30, MomentumState.NeedsCare⟩
      ⟨35, MomentumState.NeedsCare⟩ [⟨60, MomentumState.Steady⟩] rfl rfl).2.2.2
     ⟨30, MomentumState.NeedsCare⟩ ⟨60, MomentumState.Steady⟩
     [⟨65, MomentumState.Steady⟩] rfl rfl).1⟩

/-- C7: with at least 4 of the trailing 5 days classified Rising, a rule run
from an empty store emits exactly one celebration notification when the
current (most recent) state is Rising, and none when it is Steady. -/
theorem celebration_rule (u : String) (d0 : DayScore) (rest : List DayScore)
    (hcount : 4 ≤ ((d0 :: rest).take 5).countP
      (fun d => decide (d.state = MomentumState.Rising))) :
    (d0.state = MomentumState.Rising →
      notificationCount (evaluateRulesUser u (d0 :: rest) emptyEngineState).1 u
        NotificationType.celebration = 1) ∧
    (d0.state = MomentumState.Steady →
      notificationCount (evaluateRulesUser u (d0 :: rest) emptyEngineState).1 u
        NotificationType.celebration = 0) := by
  constructor
  · intro hd0
    have htrig : celebrationTriggered (d0 :: rest) = true := by
      simp only [celebrationTriggered]
      rw [Bool.and_eq_true, decide_eq_true_eq, decide_eq_true_eq]
      exact ⟨hd0, hcount⟩
    rw [notificationCount, (evaluateRulesUser_empty u (d0 :: rest)).1]
    rw [htrig]
    cases hb1 : consecutiveNeedsCareTriggered (d0 :: rest) <;>
      cases hb2 : scoreDropTriggered (d0 :: rest) <;>
        cases hb4 : consistencyTriggered (d0 :: rest) <;>
          simp [List.countP_append, List.countP_cons]
  · intro hd0
    have htrig : celebrationTriggered (d0 :: rest) = false := by
      simp [celebrationTriggered, hd0]
    rw [notificationCount, (evaluateRulesUser_empty u (d0 :: rest)).1]
    rw [htrig]
    cases hb1 : consecutiveNeedsCareTriggered (d0 :: rest) <;>
      cases hb2 : scoreDropTriggered (d0 :: rest) <;>
        cases hb4 : consistencyTriggered (d0 :: rest) <;>
          simp [List.countP_append, List.countP_cons]

/-- Witness for C7 at the concrete fixtures of
`test_celebration_trigger_sustained_rising` (Rising current day, 4 of 5
Rising) and `test_no_celebration_for_non_rising_current_state` (Steady
current day, 4 of 5 Rising). -/
theorem celebration_rule_witness :
    notificationCount (evaluateRulesUser "u1"
        [⟨75, MomentumState.Rising⟩, ⟨72, MomentumState.Rising⟩,
          ⟨60, MomentumState.Steady⟩, ⟨78, MomentumState.Rising⟩,
          ⟨80, MomentumState.Rising⟩] emptyEngineState).1 "u1"
      NotificationType.celebration = 1 ∧
    notificationCount (evaluateRulesUser "u1"
        [⟨60, MomentumState.Steady⟩, ⟨72, MomentumState.Rising⟩,
          ⟨75, MomentumState.Rising⟩, ⟨78, MomentumState.Rising⟩,
          ⟨80, MomentumState.Rising⟩] emptyEngineState).1 "u1"
      NotificationType.celebration = 0 :=
  ⟨(celebration_rule "u1" ⟨75, MomentumState.Rising⟩
      [⟨72, MomentumState.Rising⟩, ⟨60, MomentumState.Steady⟩,
        ⟨78, MomentumState.Rising⟩, ⟨80, MomentumState.Rising⟩]
      (by decide)).1 rfl,
   (celebration_rule "u1" ⟨60, MomentumState.Steady⟩
      [⟨72, MomentumState.Rising⟩, ⟨75, MomentumState.Rising⟩,
        ⟨78, MomentumState.Rising⟩, ⟨80, MomentumState.Rising⟩]
      (by decide)).2 rfl⟩

/-- Outcome reported for one user of a batch rule-evaluation run. -/
structure BatchResult where
  userId : String
  success : Bool
  triggered : Nat
deriving DecidableEq, Repr

/-- Modelled from the spec: safe single-user evaluation inside the batch.
An invalid or unrecognized user id must not crash the batch; it is recorded
as a successful no-op (zero interventions triggered) rather than raising,
while a valid id runs the rules normally. -/
def evaluateUserSafe (valid : String → Bool) (histories : String → List DayScore)
    (u : String) (st : EngineState) : EngineState × BatchResult :=
  if valid u then
    let r := evaluateRulesUser u (histories u) st
    (r.1, ⟨u, true, r.2⟩)
  else (st, ⟨u, true, 0⟩)

/-- Modelled from the spec: batch evaluation iterates the users, isolating
the outcome of each user, threading the persisted store and collecting one
result per user. -/
def evaluateRulesBatch (valid : String → Bool) (histories : String → List DayScore) :
    EngineState → List String → EngineState × List BatchResult
  | st, [] => (st, [])
  | st, u :: us =>
      let r := evaluateUserSafe valid histories u st
      let rest := evaluateRulesBatch valid histories r.1 us
      (rest.1, r.2 :: rest.2)

/-- Batch evaluation splits over list append. -/
lemma evaluateRulesBatch_append (valid : String → Bool)
    (histories : String → List DayScore) (st : EngineState)
    (us1 us2 : List String) :
    evaluateRulesBatch valid histories st (us1 ++ us2) =
      ((evaluateRulesBatch valid histories
          (evaluateRulesBatch valid histories st us1).1 us2).1,
        (evaluateRulesBatch valid histories st us1).2 ++
          (evaluateRulesBatch valid histories
            (evaluateRulesBatch valid histories st us1).1 us2).2) := by
  induction us1 generalizing st with
  | nil => simp [evaluateRulesBatch]
  | cons u us ih =>
      simp only [List.cons_append, evaluateRulesBatch, List.append_eq]
      rw [ih]

/-- Batch evaluation reports exactly one result per input user. -/
lemma evaluateRulesBatch_length (valid : String → Bool)
    (histories : String → List DayScore) (st : EngineState) (us : List String) :
    (evaluateRulesBatch valid histories st us).2.length = us.length := by
  induction us generalizing st with
  | nil => simp [evaluateRulesBatch]
  | cons u us ih => simp [evaluateRulesBatch, ih]

/-- C8: a batch containing an invalid user id does not raise: that input is
reported as a successful zero-trigger no-op, the final store is the one of
the batch without it, the results of the users before and after it are
exactly the results they get without it, and every input still gets a
result. -/
theorem batch_invalid_user_noop (valid : String → Bool)
    (histories : String → List DayScore) (st : EngineState)
    (us1 us2 : List String) (u : String) (hu : valid u = false) :
    (evaluateRulesBatch valid histories st (us1 ++ u :: us2)).1 =
      (evaluateRulesBatch valid histories st (us1 ++ us2)).1 ∧
    (evaluateRulesBatch valid histories st (us1 ++ u :: us2)).2 =
      (evaluateRulesBatch valid histories st us1).2 ++
        ⟨u, true, 0⟩ ::
          (evaluateRulesBatch valid histories
            (evaluateRulesBatch valid histories st us1).1 us2).2 ∧
    (evaluateRulesBatch valid histories st (us1 ++ u :: us2)).2.length =
      us1.length + 1 + us2.length := by
  have hstep : ∀ s : EngineState, evaluateUserSafe valid histories u s = (s, ⟨u, true, 0⟩) := by
    intro s
    simp [evaluateUserSafe, hu]
  refine ⟨?_, ?_, ?_⟩
  · rw [evaluateRulesBatch_append valid histories st us1 (u :: us2),
      evaluateRulesBatch_append valid histories st us1 us2]
    simp only [evaluateRulesBatch, hstep]
  · rw [evaluateRulesBatch_append valid histories st us1 (u :: us2)]
    simp only [evaluateRulesBatch, hstep]
  · rw [evaluateRulesBatch_length]
    simp
    omega

/-- Witness for C8: a three-entry batch whose middle id is malformed yields
three results, the middle one a successful zero-trigger no-op. -/
theorem batch_invalid_user_noop_witness :
    (evaluateRulesBatch (fun s => decide (s ≠ "invalid-user-id")) (fun _ => [])
        emptyEngineState ([] ++ "invalid-user-id" :: [])).2.length = 0 + 1 + 0 ∧
    (evaluateRulesBatch (fun s => decide (s ≠ "invalid-user-id")) (fun _ => [])
        emptyEngineState ([] ++ "invalid-user-id" :: [])).2 =
      (evaluateRulesBatch (fun s => decide (s ≠ "invalid-user-id")) (fun _ => [])
          emptyEngineState []).2 ++
        ⟨"invalid-user-id", true, 0⟩ ::
          (evaluateRulesBatch (fun s => decide (s ≠ "invalid-user-id")) (fun _ => [])
            (evaluateRulesBatch (fun s => decide (s ≠ "invalid-user-id")) (fun _ => [])
              emptyEngineState []).1 []).2 :=
  ⟨(batch_invalid_user_noop (fun s => decide (s ≠ "invalid-user-id"))
      (fun _ => []) emptyEngineState [] [] "invalid-user-id" (by decide)).2.2,
   (batch_invalid_user_noop (fun s => decide (s ≠ "invalid-user-id"))
      (fun _ => []) emptyEngineState [] [] "invalid-user-id" (by decide)).2.1⟩


/-- A persisted DailyScore row (the columns the uniqueness and back-fill
claims inspect: the key columns user id and score date, plus the final
score and momentum state payload). -/
structure ScoreRow where
  userId : String
  scoreDate : Nat
  finalScore : ℚ
  momentumState : MomentumState
deriving DecidableEq, Repr

/-- Whether a row holds the (user id, score date) key. -/
def sameKey (r : ScoreRow) (u : String) (d : Nat) : Bool :=
  decide (r.userId = u ∧ r.scoreDate = d)

/-- Number of rows of the store holding the (user id, score date) key. -/
def keyCount (store : List ScoreRow) (u : String) (d : Nat) : Nat :=
  store.countP (fun r => sameKey r u d)

/-- The DailyScore table invariant: at most one row per
(user id, score date) pair. -/
def UniqueKeys (store : List ScoreRow) : Prop :=
  ∀ u d, keyCount store u d ≤ 1

/-- Modelled from the spec: the atomic upsert primitive of the historical
store (database code outside the repository snapshot): recomputation for an
already-scored (user, date) replaces that row in place; a fresh key appends
a new row. -/
def upsertScore : List ScoreRow → ScoreRow → List ScoreRow
  | [], row => [row]
  | r :: rest, row =>
      if sameKey r row.userId row.scoreDate then row :: rest
      else r :: upsertScore rest row

/-- Modelled from the spec: a plain insert outside the upsert path is
rejected with a conflict when a row with the same (user id, score date) key
already exists (the unique constraint exercised by
`test_prevent_duplicate_daily_scores`), leaving the store untouched; only a
missing key appends. -/
def insertScore (store : List ScoreRow) (row : ScoreRow) :
    Except String (List ScoreRow) :=
  if store.any (fun r => sameKey r row.userId row.scoreDate) then
    Except.error "duplicate key"
  else Except.ok (store ++ [row])

/-- Two rows with the same key match exactly the same key queries. -/
lemma sameKey_congr (r row : ScoreRow)
    (h : sameKey r row.userId row.scoreDate = true) (u : String) (d : Nat) :
    sameKey r u d = sameKey row u d := by
  simp only [sameKey, decide_eq_true_eq] at h
  simp only [sameKey, h.1, h.2]

/-- Upserting a row never changes the count of any other key. -/
lemma keyCount_upsertScore_other (store : List ScoreRow) (row : ScoreRow)
    (u : String) (d : Nat) (h : sameKey row u d = false) :
    keyCount (upsertScore store row) u d = keyCount store u d := by
  induction store with
  | nil => simp [upsertScore, keyCount, List.countP_cons, h]
  | cons r rest ih =>
      simp only [upsertScore]
      by_cases hr : sameKey r row.userId row.scoreDate
      · rw [if_pos hr]
        simp only [keyCount, List.countP_cons, sameKey_congr r row hr u d, h]
      · rw [if_neg hr]
        simp only [keyCount, List.countP_cons] at ih ⊢
        rw [ih]

/-- Upserting sets the count of the own key of the row to one more than zero
when it was absent and keeps the count when it was present. -/
lemma keyCount_upsertScore_self (store : List ScoreRow) (row : ScoreRow) :
    keyCount (upsertScore store row) row.userId row.scoreDate =
      if keyCount store row.userId row.scoreDate = 0 then 1
      else keyCount store row.userId row.scoreDate := by
  induction store with
  | nil => simp [upsertScore, keyCount, List.countP_cons, sameKey]
  | cons r rest ih =>
      simp only [upsertScore]
      by_cases hr : sameKey r row.userId row.scoreDate
      · rw [if_pos hr]
        have hrt : sameKey r row.userId row.scoreDate = true := by simpa using hr
        have hrowt : sameKey row row.userId row.scoreDate = true := by
          simp [sameKey]
        have hL : keyCount (row :: rest) row.userId row.scoreDate =
            keyCount rest row.userId row.scoreDate + 1 := by
          simp [keyCount, List.countP_cons, hrowt]
        have hR : keyCount (r :: rest) row.userId row.scoreDate =
            keyCount rest row.userId row.scoreDate + 1 := by
          simp [keyCount, List.countP_cons, hrt]
        rw [hL, hR]
        split <;> omega
      · rw [if_neg hr]
        simp only [keyCount, List.countP_cons] at ih ⊢
        have hrf : sameKey r row.userId row.scoreDate = false := by
          simpa using hr
        rw [hrf, ih]
        simp

/-- A positive key count is exactly an existing matching row. -/
lemma keyCount_pos_iff_any (store : List ScoreRow) (u : String) (d : Nat) :
    1 ≤ keyCount store u d ↔
      store.any (fun r => sameKey r u d) = true := by
  unfold keyCount
  rw [List.any_eq_true]
  constructor
  · intro h
    exact List.countP_pos_iff.mp (by omega)
  · intro h
    have := List.countP_pos_iff.mpr h
    omega

/-- C9: the DailyScore store keeps at most one row per (user id, score
date): upserting preserves the invariant, leaves exactly one row with the
upserted key, leaves the rows of every other key alone, and a plain insert of an
already-present key is rejected with a duplicate-key error (so the stored
row is unchanged). -/
theorem daily_score_unique_key (store : List ScoreRow) (row : ScoreRow)
    (hinv : UniqueKeys store) :
    UniqueKeys (upsertScore store row) ∧
    keyCount (upsertScore store row) row.userId row.scoreDate = 1 ∧
    (∀ u d, sameKey row u d = false →
      keyCount (upsertScore store row) u d = keyCount store u d) ∧
    (1 ≤ keyCount store row.userId row.scoreDate →
      insertScore store row = Except.error "duplicate key") := by
  have hself : keyCount (upsertScore store row) row.userId row.scoreDate = 1 := by
    rw [keyCount_upsertScore_self]
    have := hinv row.userId row.scoreDate
    split <;> omega
  refine ⟨?_, hself, fun u d h => keyCount_upsertScore_other store row u d h, ?_⟩
  · intro u d
    cases hk : sameKey row u d with
    | true =>
        simp only [sameKey, decide_eq_true_eq] at hk
        rw [← hk.1, ← hk.2, hself]
    | false =>
        rw [keyCount_upsertScore_other store row u d hk]
        exact hinv u d
  · intro h
    unfold insertScore
    rw [if_pos ((keyCount_pos_iff_any store row.userId row.scoreDate).mp h)]

/-- Any single-row store satisfies the uniqueness invariant. -/
lemma uniqueKeys_singleton (r : ScoreRow) : UniqueKeys [r] := by
  intro u d
  simp only [keyCount, List.countP_cons, List.countP_nil]
  split <;> omega

/-- Witness for C9 at the duplicate-insert fixture of
`test_prevent_duplicate_daily_scores`: recomputing the row for the same
(user, date) through the upsert leaves exactly one row, and a second plain
insert for that key is rejected. -/
theorem daily_score_unique_key_witness :
    keyCount (upsertScore [⟨"u1", 17, 75, MomentumState.Rising⟩]
        ⟨"u1", 17, 80, MomentumState.Rising⟩) "u1" 17 = 1 ∧
    insertScore [⟨"u1", 17, 75, MomentumState.Rising⟩]
        ⟨"u1", 17, 80, MomentumState.Rising⟩ = Except.error "duplicate key" :=
  ⟨(daily_score_unique_key [⟨"u1", 17, 75, MomentumState.Rising⟩]
      ⟨"u1", 17, 80, MomentumState.Rising⟩
      (uniqueKeys_singleton ⟨"u1", 17, 75, MomentumState.Rising⟩)).2.1,
   (daily_score_unique_key [⟨"u1", 17, 75, MomentumState.Rising⟩]
      ⟨"u1", 17, 80, MomentumState.Rising⟩
      (uniqueKeys_singleton ⟨"u1", 17, 75, MomentumState.Rising⟩)).2.2.2
     (by decide)⟩

/-- Whether the store already holds a DailyScore row for (user id, date) —
the LEFT JOIN / `d.user_id IS NULL` test of the back-fill SQL. -/
def hasRow (store : List ScoreRow) (u : String) (d : Nat) : Bool :=
  store.any (fun r => sameKey r u d)

/-- The default momentum row inserted by
`scripts/backfill_momentum_rows.py` for a missing (user, date) pair:
`final_score = 0.0` and a NeedsCare momentum state. -/
def defaultRow (u : String) (d : Nat) : ScoreRow :=
  ⟨u, d, 0, MomentumState.NeedsCare⟩

/-- Embedding of the SQL generated by `_sql_insert_statement(date_iso,
batch_size, offset)`: the `missing` CTE selects users without a row for the
date (`LIMIT batch_size OFFSET offset`), and the INSERT adds a default row
per selected user with ON CONFLICT (user_id, score_date) DO NOTHING,
returning one row per insertion. -/
def sqlInsertBatch (users : List String) (store : List ScoreRow)
    (d batch offset : Nat) : List ScoreRow × Nat :=
  let missing := ((users.filter (fun u => !(hasRow store u d))).drop offset).take batch
  let inserted := (missing.filter (fun u => !(hasRow store u d))).map
    (fun u => defaultRow u d)
  (store ++ inserted, inserted.length)

/-- Embedding of the batched-insert loop of `process_day` (non-dry-run):
run `_sql_insert_statement` with growing offset until a batch inserts fewer
than `batch_size` rows; `fuel` bounds the iteration count. -/
def processDayLoop (users : List String) (d batch : Nat) :
    Nat → Nat → List ScoreRow → List ScoreRow × Nat
  | 0, _, store => (store, 0)
  | fuel + 1, offset, store =>
      let r := sqlInsertBatch users store d batch offset
      if r.2 < batch then (r.1, r.2)
      else
        let rest := processDayLoop users d batch fuel (offset + batch) r.1
        (rest.1, r.2 + rest.2)

/-- Embedding of `process_day(client, target_date, dry_run=False,
batch_size)`: the loop starting at offset 0, with enough fuel that it can
never be cut short (each full batch inserts `batch` rows, so at most
`users.length + 1` iterations happen). -/
def process_day (users : List String) (d batch : Nat) (store : List ScoreRow) :
    List ScoreRow × Nat :=
  processDayLoop users d batch (users.length + 1) 0 store

/-- A row query over an appended store succeeds iff it succeeds on either
part. -/
lemma hasRow_append (store ins : List ScoreRow) (u : String) (d : Nat) :
    hasRow (store ++ ins) u d = (hasRow store u d || hasRow ins u d) := by
  simp [hasRow, List.any_append]

/-- Every row added by one SQL batch is a default row of the date of the batch
for a user with no prior row. -/
lemma sqlInsertBatch_new (users : List String) (store : List ScoreRow)
    (d batch offset : Nat) (x : ScoreRow)
    (hx : x ∈ (sqlInsertBatch users store d batch offset).1) :
    x ∈ store ∨ (x = defaultRow x.userId d ∧ hasRow store x.userId d = false) := by
  simp only [sqlInsertBatch, List.mem_append] at hx
  rcases hx with hx | hx
  · exact Or.inl hx
  · right
    simp only [List.mem_map, List.mem_filter] at hx
    obtain ⟨u, ⟨_, hu⟩, hxu⟩ := hx
    have huid : x.userId = u := by rw [← hxu]; rfl
    constructor
    · rw [← hxu]
      rfl
    · rw [huid]
      simpa using hu

/-- The loop only appends rows, so every existing row survives, and every
appended row is a default row for a pair that had no row at loop entry. -/
lemma processDayLoop_frame (users : List String) (d batch : Nat)
    (fuel offset : Nat) (store : List ScoreRow) :
    (∀ r ∈ store, r ∈ (processDayLoop users d batch fuel offset store).1) ∧
    (∀ r ∈ (processDayLoop users d batch fuel offset store).1, r ∉ store →
      r.scoreDate = d ∧ r.finalScore = 0 ∧
      r.momentumState = MomentumState.NeedsCare ∧
      hasRow store r.userId d = false) := by
  induction fuel generalizing offset store with
  | zero =>
      refine ⟨fun r hr => hr, fun r hr hnot => absurd hr hnot⟩
  | succ fuel ih =>
      simp only [processDayLoop]
      split
      · constructor
        · intro r hr
          simp only [sqlInsertBatch, List.mem_append]
          exact Or.inl hr
        · intro r hr hnot
          rcases sqlInsertBatch_new users store d batch offset r hr with h | h
          · exact absurd h hnot
          · refine ⟨?_, ?_, ?_, h.2⟩
            · rw [h.1]
              rfl
            · rw [h.1]
              rfl
            · rw [h.1]
              rfl
      · constructor
        · intro r hr
          refine (ih (offset + batch) (sqlInsertBatch users store d batch offset).1).1 r ?_
          simp only [sqlInsertBatch, List.mem_append]
          exact Or.inl hr
        · intro r hr hnot
          by_cases hmid : r ∈ (sqlInsertBatch users store d batch offset).1
          · rcases sqlInsertBatch_new users store d batch offset r hmid with h | h
            · exact absurd h hnot
            · refine ⟨?_, ?_, ?_, h.2⟩
              · rw [h.1]
                rfl
              · rw [h.1]
                rfl
              · rw [h.1]
                rfl
          · have := (ih (offset + batch) (sqlInsertBatch users store d batch offset).1).2
              r hr hmid
            refine ⟨this.1, this.2.1, this.2.2.1, ?_⟩
            have hmono := this.2.2.2
            simp only [sqlInsertBatch] at hmono
            rw [hasRow_append] at hmono
            exact (Bool.or_eq_false_iff.mp hmono).1

/-- C10: every run of the back-fill per-day step leaves each already-present
DailyScore row in place (the insert is ON CONFLICT DO NOTHING over missing
pairs only), and every row it inserts is a default row — score date equal
to the processed date, `final_score = 0.0` and state NeedsCare
— for a (user, date) pair that previously had no row. -/
theorem backfill_process_day_frame (users : List String) (d batch : Nat)
    (store : List ScoreRow) :
    (∀ r ∈ store, r ∈ (process_day users d batch store).1) ∧
    (∀ r ∈ (process_day users d batch store).1, r ∉ store →
      r.scoreDate = d ∧ r.finalScore = 0 ∧
      r.momentumState = MomentumState.NeedsCare ∧
      hasRow store r.userId d = false) :=
  processDayLoop_frame users d batch (users.length + 1) 0 store

/-- Witness for C10: back-filling date 5 for users u1 (already scored) and
u2 (missing) keeps the existing row of u1 and only adds the default
`NeedsCare` row of u2, whose pair had no row. -/
theorem backfill_process_day_frame_witness :
    (⟨"u1", 5, 50, MomentumState.Steady⟩ : ScoreRow) ∈
      (process_day ["u1", "u2"] 5 500 [⟨"u1", 5, 50, MomentumState.Steady⟩]).1 ∧
    ((defaultRow "u2" 5).scoreDate = 5 ∧ (defaultRow "u2" 5).finalScore = 0 ∧
      (defaultRow "u2" 5).momentumState = MomentumState.NeedsCare ∧
      hasRow [⟨"u1", 5, 50, MomentumState.Steady⟩] (defaultRow "u2" 5).userId 5 = false) :=
  ⟨(backfill_process_day_frame ["u1", "u2"] 5 500
      [⟨"u1", 5, 50, MomentumState.Steady⟩]).1 _ (by simp),
   (backfill_process_day_frame ["u1", "u2"] 5 500
      [⟨"u1", 5, 50, MomentumState.Steady⟩]).2 (defaultRow "u2" 5)
     (by decide) (by decide)⟩
